import Mathlib

/-!
Verification of the portfolio calculator
(src/apps/chatbot/lib/portfolioCalculator.ts).

The TypeScript module is pure calculation logic over IEEE doubles, JS
`Map`s and plain objects.  We embed it shallowly:

* JS numbers are modelled as exact rationals `ℚ`.  The only
  transcendental operations, `Math.sqrt` and `Math.pow` with a
  fractional exponent, are taken as opaque function parameters
  (`sq : ℚ → ℚ`, `pw : ℚ → ℚ → ℚ`); `Math.pow(x, 2)` and
  `Math.pow(x, 12)` with literal integer exponents are exact powers.
* A JS `Map`/object is an insertion-ordered association list with
  unique keys; `get` finds the first entry, `set` overwrites in place
  or appends.
* `Number.prototype.toFixed(k)` followed by `parseFloat` is rounding to
  `k` decimal places (`roundTo`).
* JS string sort (`Array.prototype.sort()` with no comparator) is
  lexicographic comparison of the character sequences (`dateLe`).
* A thrown `Error` is the `Except.error` branch.
-/

namespace Portfolio

/-- Models a JS `Map<string, α>` / plain object: an insertion-ordered
association list. -/
abbrev Record (α : Type) : Type := List (String × α)

/-- Models `Map.get(k)` / `obj[k]`: the first entry with key `k`. -/
def mapGet {α : Type} (m : Record α) (k : String) : Option α :=
  match m.find? (fun p => p.1 == k) with
  | some p => some p.2
  | none => none

/-- Models `Map.set(k, v)` / `obj[k] = v`: overwrite the entry in place
if the key is present, else append. -/
def mapSet {α : Type} (m : Record α) (k : String) (v : α) : Record α :=
  match m with
  | [] => [(k, v)]
  | (k2, v2) :: rest => if k2 == k then (k, v) :: rest else (k2, v2) :: mapSet rest k v

/-- Models the `AssetReturn` interface; the `return` field is renamed
`ret` (`return` is a Lean keyword). -/
structure AssetReturn where
  asset : String
  date : String
  ret : ℚ
deriving DecidableEq

/-- Models the `PortfolioConfig` interface; the optional
`rebalanceMonths` field is an `Option` (JS `undefined` = `none`), a
rational so that the `Number.isInteger` validation check is meaningful. -/
structure PortfolioConfig where
  assets : List String
  weights : List ℚ
  startDate : String
  endDate : String
  rebalanceMonths : Option ℚ
deriving DecidableEq

/-- Models the `{ valid: boolean; error?: string }` return shape of
`validatePortfolioConfig`. -/
structure ValidationResult where
  valid : Bool
  error : Option String
deriving DecidableEq

/-- Models `validatePortfolioConfig` (portfolioCalculator.ts lines
74-98).  The weight-sum error message interpolates the sum in the
source; the interpolated part is dropped here (only which rule fired,
and that some message is produced, matter to the claims). -/
def validatePortfolioConfig (config : PortfolioConfig) : ValidationResult :=
  if config.assets.length = 0 then
    ⟨false, some "At least one asset is required"⟩
  else if config.weights.length = 0 then
    ⟨false, some "Weights array is required"⟩
  else if config.assets.length ≠ config.weights.length then
    ⟨false, some "Assets and weights arrays must have the same length"⟩
  else if |config.weights.foldl (fun a b => a + b) 0 - 1| > 1 / 100 then
    ⟨false, some "Weights must sum to 1.0"⟩
  else if config.rebalanceMonths.getD (-1) ≠ -1 ∧
      (config.rebalanceMonths.getD (-1) < 1 ∨ (config.rebalanceMonths.getD (-1)).den ≠ 1) then
    ⟨false, some "rebalanceMonths must be -1 (never) or a positive integer"⟩
  else
    ⟨true, none⟩

/-- Models `groupReturnsByDate` (lines 108-121): fold the rows into a
map of maps, last write wins. -/
def groupReturnsByDate (returns : List AssetReturn) : Record (Record ℚ) :=
  returns.foldl
    (fun acc row =>
      mapSet acc row.date (mapSet ((mapGet acc row.date).getD []) row.asset row.ret))
    []

/-- Models the default JS string comparator used by
`completeDates.sort()`: lexicographic order on the character
sequences. -/
def dateLe (a b : String) : Bool := decide (a.data ≤ b.data)

/-- Models `getCompleteDates` (lines 126-140): keep the dates whose
inner map has an entry for every requested asset, then sort. -/
def getCompleteDates (returnsByDate : Record (Record ℚ)) (assets : List String) :
    List String :=
  ((returnsByDate.filter (fun p => assets.all (fun a => (mapGet p.2 a).isSome))).map
      (fun p => p.1)).mergeSort dateLe

/-- Models the `MonthlyPortfolioReturn` interface. -/
structure MonthlyPortfolioReturn where
  date : String
  portfolioReturn : ℚ
  cumulativeValue : ℚ
  assetReturns : Record ℚ
  weightsBeforeRebalance : Record ℚ
  weightsAfterRebalance : Record ℚ
  wasRebalanced : Bool
deriving DecidableEq, Inhabited

/-- Models `parseFloat(x.toFixed(k))`: round to `k` decimal places. -/
def roundTo (k : ℕ) (x : ℚ) : ℚ := (round (x * 10 ^ k) : ℤ) / 10 ^ k

/-- Rounding to 6 decimal places, as applied to the emitted trace and
the fractional metrics. -/
def round6 (x : ℚ) : ℚ := roundTo 6 x

/-- Rounding to 3 decimal places, as applied to the emitted ratios. -/
def round3 (x : ℚ) : ℚ := roundTo 3 x

/-- Rounding to 2 decimal places, as applied to the emitted
percentages and `numYears`. -/
def round2 (x : ℚ) : ℚ := roundTo 2 x

/-- Models `assetReturns.get(asset) || 0` (line 181): a missing entry
contributes 0.  (`0` is falsy in JS, so `x || 0` is the identity on
every recorded return.) -/
def assetRet (assetReturns : Record ℚ) (a : String) : ℚ :=
  (mapGet assetReturns a).getD 0

/-- Models the accumulation `monthlyReturn += currentWeights[i] *
assetReturn` over the asset loop (lines 179-191).  The loop pairs
`config.assets[i]` with `currentWeights[i]` positionally, which the
`zip` reproduces whenever the two lists have equal length (guaranteed
by validation). -/
def monthlyReturnOf (assets : List String) (weights : List ℚ) (assetReturns : Record ℚ) : ℚ :=
  ((assets.zip weights).map (fun p => p.2 * assetRet assetReturns p.1)).sum

/-- Models `newWeights[i] = currentWeights[i] * (1 + assetReturn)`
followed by the normalization `newWeights[i] /= portfolioGrowth`
(lines 190-197), with `growth = 1 + monthlyReturn`. -/
def driftWeights (assets : List String) (weights : List ℚ) (assetReturns : Record ℚ)
    (growth : ℚ) : List ℚ :=
  (assets.zip weights).map (fun p => p.2 * (1 + assetRet assetReturns p.1) / growth)

/-- Models building a JS object by assigning `obj[keys[i]] = vals[i]`
in index order. -/
def recordOf (keys : List String) (vals : List ℚ) : Record ℚ :=
  (keys.zip vals).foldl (fun acc p => mapSet acc p.1 p.2) []

/-- The mutable locals of the simulation loop (lines 164-166). -/
structure SimState where
  cumulativeValue : ℚ
  currentWeights : List ℚ
  monthsSinceRebalance : ℕ
deriving DecidableEq

/-- Models one iteration of the `for (const date of completeDates)`
loop of `calculatePortfolioReturns` (lines 171-231): the emitted
record and the updated state. -/
def simStep (assets : List String) (initWeights : List ℚ) (rebalanceMonths : ℚ)
    (st : SimState) (date : String) (assetReturns : Record ℚ) :
    MonthlyPortfolioReturn × SimState :=
  let monthlyReturn := monthlyReturnOf assets st.currentWeights assetReturns
  let newWeights := driftWeights assets st.currentWeights assetReturns (1 + monthlyReturn)
  let cumulativeValue := st.cumulativeValue * (1 + monthlyReturn)
  let monthsSinceRebalance := st.monthsSinceRebalance + 1
  let shouldRebalance :=
    decide (0 < rebalanceMonths) && decide (rebalanceMonths ≤ (monthsSinceRebalance : ℚ))
  let weightsAfter := if shouldRebalance then initWeights else newWeights
  (⟨date, monthlyReturn, round6 cumulativeValue,
      recordOf assets (assets.map (assetRet assetReturns)),
      recordOf assets st.currentWeights,
      recordOf assets weightsAfter,
      shouldRebalance⟩,
    ⟨cumulativeValue, weightsAfter, if shouldRebalance then 0 else monthsSinceRebalance⟩)

/-- The simulation loop: thread the state through the complete dates,
collecting one record per date. -/
def simRun (assets : List String) (initWeights : List ℚ) (rebalanceMonths : ℚ)
    (returnsByDate : Record (Record ℚ)) :
    SimState → List String → List MonthlyPortfolioReturn
  | _, [] => []
  | st, d :: ds =>
    (simStep assets initWeights rebalanceMonths st d ((mapGet returnsByDate d).getD [])).1 ::
      simRun assets initWeights rebalanceMonths returnsByDate
        (simStep assets initWeights rebalanceMonths st d ((mapGet returnsByDate d).getD [])).2 ds

/-- Models `calculatePortfolioReturns` (lines 150-234): filter to the
complete dates, return `[]` when there are none, else run the loop
from `cumulativeValue = 1.0`, `currentWeights = [...config.weights]`,
`monthsSinceRebalance = 0`. -/
def calculatePortfolioReturns (returnsByDate : Record (Record ℚ)) (config : PortfolioConfig) :
    List MonthlyPortfolioReturn :=
  if (getCompleteDates returnsByDate config.assets).length = 0 then []
  else
    simRun config.assets config.weights (config.rebalanceMonths.getD (-1)) returnsByDate
      ⟨1, config.weights, 0⟩ (getCompleteDates returnsByDate config.assets)

/-- Models the `PortfolioMetrics` interface. -/
structure PortfolioMetrics where
  totalReturn : ℚ
  totalReturnPercent : ℚ
  annualizedReturn : ℚ
  annualizedReturnPercent : ℚ
  volatility : ℚ
  volatilityPercent : ℚ
  sharpeRatio : ℚ
  maxDrawdown : ℚ
  maxDrawdownPercent : ℚ
  sortinoRatio : ℚ
  calmarRatio : ℚ
  numMonths : ℕ
  numYears : ℚ
  bestMonth : ℚ
  worstMonth : ℚ
deriving DecidableEq, Inhabited

/-- Models `returns.reduce((sum, r) => sum + r, 0)`. -/
def sumQ (l : List ℚ) : ℚ := l.foldl (fun a b => a + b) 0

/-- Models `monthlyReturns.map(r => r.portfolioReturn)` (line 256). -/
def returnsOf (ms : List MonthlyPortfolioReturn) : List ℚ :=
  ms.map (fun r => r.portfolioReturn)

/-- Models `monthlyReturns[numMonths - 1].cumulativeValue` (line 251)
for a non-empty list (the only way it is reached). -/
def finalValueOf (ms : List MonthlyPortfolioReturn) : ℚ :=
  (ms.getLast?.map (fun r => r.cumulativeValue)).getD 0

/-- Models `numYears = numMonths / 12` (line 248). -/
def numYearsOf (ms : List MonthlyPortfolioReturn) : ℚ := (ms.length : ℚ) / 12

/-- The full-precision `annualizedReturn` local (line 253):
`numYears > 0 ? Math.pow(finalValue, 1 / numYears) - 1 : 0`. -/
def annualizedReturnFull (pw : ℚ → ℚ → ℚ) (ms : List MonthlyPortfolioReturn) : ℚ :=
  if 0 < numYearsOf ms then pw (finalValueOf ms) (1 / numYearsOf ms) - 1 else 0

/-- The full-precision `avgReturn` local (line 257). -/
def avgReturnOf (ms : List MonthlyPortfolioReturn) : ℚ := sumQ (returnsOf ms) / ms.length

/-- The full-precision `variance` local (line 258); `Math.pow(x, 2)`
is the exact square. -/
def varianceOf (ms : List MonthlyPortfolioReturn) : ℚ :=
  sumQ ((returnsOf ms).map (fun r => (r - avgReturnOf ms) ^ 2)) / ms.length

/-- The full-precision `annualizedVolatility` local (lines 259-260):
`Math.sqrt(variance) * Math.sqrt(12)`. -/
def annualizedVolatilityOf (sq : ℚ → ℚ) (ms : List MonthlyPortfolioReturn) : ℚ :=
  sq (varianceOf ms) * sq 12

/-- The full-precision `monthlyRiskFreeRate` local (line 263):
`Math.pow(1 + riskFreeRate, 1/12) - 1`. -/
def monthlyRiskFreeOf (pw : ℚ → ℚ → ℚ) (riskFreeRate : ℚ) : ℚ :=
  pw (1 + riskFreeRate) (1 / 12) - 1

/-- The full-precision `avgExcessReturn` local (lines 264-265). -/
def avgExcessOf (pw : ℚ → ℚ → ℚ) (ms : List MonthlyPortfolioReturn) (riskFreeRate : ℚ) : ℚ :=
  sumQ ((returnsOf ms).map (fun r => r - monthlyRiskFreeOf pw riskFreeRate)) / ms.length

/-- The full-precision `annualizedExcessReturn` local (line 266);
`Math.pow(x, 12)` is the exact power. -/
def annualizedExcessOf (pw : ℚ → ℚ → ℚ) (ms : List MonthlyPortfolioReturn)
    (riskFreeRate : ℚ) : ℚ :=
  (1 + avgExcessOf pw ms riskFreeRate) ^ 12 - 1

/-- The full-precision `sharpeRatio` local (line 267). -/
def sharpeFull (sq : ℚ → ℚ) (pw : ℚ → ℚ → ℚ) (ms : List MonthlyPortfolioReturn)
    (riskFreeRate : ℚ) : ℚ :=
  if 0 < annualizedVolatilityOf sq ms then
    annualizedExcessOf pw ms riskFreeRate / annualizedVolatilityOf sq ms
  else 0

/-- The full-precision `downsideVolatility` local (lines 270-272); the
divisor is `numMonths`, not the downside count. -/
def downsideVolOf (sq : ℚ → ℚ) (pw : ℚ → ℚ → ℚ) (ms : List MonthlyPortfolioReturn)
    (riskFreeRate : ℚ) : ℚ :=
  sq (sumQ (((returnsOf ms).filter (fun r => r < monthlyRiskFreeOf pw riskFreeRate)).map
        (fun r => (r - monthlyRiskFreeOf pw riskFreeRate) ^ 2)) / ms.length) * sq 12

/-- The full-precision `sortinoRatio` local (line 273). -/
def sortinoFull (sq : ℚ → ℚ) (pw : ℚ → ℚ → ℚ) (ms : List MonthlyPortfolioReturn)
    (riskFreeRate : ℚ) : ℚ :=
  if 0 < downsideVolOf sq pw ms riskFreeRate then
    annualizedExcessOf pw ms riskFreeRate / downsideVolOf sq pw ms riskFreeRate
  else 0

/-- One iteration of the max-drawdown loop (lines 279-283): update the
running peak, then fold in the drawdown at this point. -/
def ddStep (s : ℚ × ℚ) (v : ℚ) : ℚ × ℚ :=
  (max s.1 v, min s.2 ((v - max s.1 v) / max s.1 v))

/-- The full-precision `maxDrawdown` local (lines 276-283): running
peak starting at 1.0, minimum of the drawdowns starting at 0. -/
def maxDrawdownOf (values : List ℚ) : ℚ := (values.foldl ddStep (1, 0)).2

/-- The cumulative-value series consumed by the max-drawdown loop. -/
def valuesOf (ms : List MonthlyPortfolioReturn) : List ℚ :=
  ms.map (fun r => r.cumulativeValue)

/-- The full-precision `calmarRatio` local (line 286). -/
def calmarFull (pw : ℚ → ℚ → ℚ) (ms : List MonthlyPortfolioReturn) : ℚ :=
  if maxDrawdownOf (valuesOf ms) < 0 then
    annualizedReturnFull pw ms / |maxDrawdownOf (valuesOf ms)|
  else 0

/-- Models `calculateMetrics` (lines 239-309): error on an empty
sequence, else emit the rounded metrics; every rounded field is the
rounding of the corresponding full-precision local, and the rounding
happens only here, at emission.  `Math.max(...returns)` /
`Math.min(...returns)` are `max?` / `min?` (the list is non-empty on
this branch, so the `getD 0` default is never the value used). -/
def calculateMetrics (sq : ℚ → ℚ) (pw : ℚ → ℚ → ℚ) (monthlyReturns : List MonthlyPortfolioReturn)
    (riskFreeRate : ℚ) : Except String PortfolioMetrics :=
  if monthlyReturns.length = 0 then
    Except.error "Cannot calculate metrics with no return data"
  else
    Except.ok
      ⟨round6 (finalValueOf monthlyReturns - 1),
        round2 ((finalValueOf monthlyReturns - 1) * 100),
        round6 (annualizedReturnFull pw monthlyReturns),
        round2 (annualizedReturnFull pw monthlyReturns * 100),
        round6 (annualizedVolatilityOf sq monthlyReturns),
        round2 (annualizedVolatilityOf sq monthlyReturns * 100),
        round3 (sharpeFull sq pw monthlyReturns riskFreeRate),
        round6 (maxDrawdownOf (valuesOf monthlyReturns)),
        round2 (maxDrawdownOf (valuesOf monthlyReturns) * 100),
        round3 (sortinoFull sq pw monthlyReturns riskFreeRate),
        round3 (calmarFull pw monthlyReturns),
        monthlyReturns.length,
        round2 (numYearsOf monthlyReturns),
        round6 (((returnsOf monthlyReturns).max?).getD 0),
        round6 (((returnsOf monthlyReturns).min?).getD 0)⟩

/-- Models the `PortfolioResults` interface; `timeSeries` entries
`{date, value}` are pairs. -/
structure PortfolioResults where
  config : PortfolioConfig
  monthlyReturns : List MonthlyPortfolioReturn
  timeSeries : List (String × ℚ)
  metrics : PortfolioMetrics
deriving DecidableEq

/-- Models `calculatePortfolio` (lines 315-351): validate (throw on
failure), group, simulate, throw on an empty result, compute metrics,
assemble.  The optional `riskFreeRate` defaults to 0.02 inside
`calculateMetrics`; that default is applied here to its `Option`. -/
def calculatePortfolio (sq : ℚ → ℚ) (pw : ℚ → ℚ → ℚ) (returns : List AssetReturn)
    (config : PortfolioConfig) (riskFreeRate : Option ℚ) : Except String PortfolioResults :=
  if (validatePortfolioConfig config).valid = false then
    Except.error ((validatePortfolioConfig config).error.getD "")
  else
    let monthlyReturns := calculatePortfolioReturns (groupReturnsByDate returns) config
    if monthlyReturns.length = 0 then
      Except.error "No overlapping data found for all assets in date range"
    else
      match calculateMetrics sq pw monthlyReturns (riskFreeRate.getD (1 / 50)) with
      | Except.error e => Except.error e
      | Except.ok metrics =>
        Except.ok ⟨config, monthlyReturns,
          monthlyReturns.map (fun r => (r.date, r.cumulativeValue)), metrics⟩

/-- The full-precision cumulative growth of a trace prefix: the
product of `1 + portfolioReturn` over its records (empty product = the
1.0 baseline). -/
def prodGrowth (l : List MonthlyPortfolioReturn) : ℚ :=
  (l.map (fun r => 1 + r.portfolioReturn)).prod

/-- Internal consistency of one emitted record: there are entry
weights `w` and a per-date return map `m` from which every field of
the record is built exactly as one loop iteration builds it. -/
def StepConsistent (assets : List String) (initWeights : List ℚ)
    (r : MonthlyPortfolioReturn) : Prop :=
  ∃ w m, w.length = assets.length ∧
    r.assetReturns = recordOf assets (assets.map (assetRet m)) ∧
    r.weightsBeforeRebalance = recordOf assets w ∧
    r.portfolioReturn = monthlyReturnOf assets w m ∧
    r.weightsAfterRebalance =
      recordOf assets
        (if r.wasRebalanced then initWeights
          else driftWeights assets w m (1 + monthlyReturnOf assets w m))

/-! Helper lemmas about the `Record` model. -/

theorem mapGet_nil {α : Type} (k : String) : mapGet ([] : Record α) k = none := rfl

theorem mapGet_cons {α : Type} (k : String) (v : α) (m : Record α) (a : String) :
    mapGet ((k, v) :: m) a = if k = a then some v else mapGet m a := by
  by_cases h : k = a
  · subst h
    simp [mapGet, List.find?_cons_of_pos]
  · have hb : ((k, v).1 == a) = false := by simpa using h
    simp [mapGet, List.find?_cons_of_neg, hb, h]

theorem mapSet_cons_ne {α : Type} (k2 k : String) (v2 v : α) (m : Record α) (h : k2 ≠ k) :
    mapSet ((k2, v2) :: m) k v = (k2, v2) :: mapSet m k v := by
  simp [mapSet, h]

theorem foldl_mapSet_fresh {α : Type} (l : List (String × α)) :
    ∀ (m : Record α) (a : String) (v : α), (∀ p ∈ l, p.1 ≠ a) →
      l.foldl (fun acc p => mapSet acc p.1 p.2) ((a, v) :: m) =
        (a, v) :: l.foldl (fun acc p => mapSet acc p.1 p.2) m := by
  induction l with
  | nil => intro m a v _; rfl
  | cons q l ih =>
    intro m a v h
    have hq : q.1 ≠ a := h q (by simp)
    simp only [List.foldl_cons]
    rw [mapSet_cons_ne a q.1 v q.2 m (Ne.symm hq)]
    exact ih _ _ _ (fun p hp => h p (by simp [hp]))

theorem recordOf_cons (a : String) (as : List String) (v : ℚ) (vs : List ℚ) (h : a ∉ as) :
    recordOf (a :: as) (v :: vs) = (a, v) :: recordOf as vs := by
  unfold recordOf
  simp only [List.zip_cons_cons, List.foldl_cons]
  rw [show mapSet ([] : Record ℚ) a v = [(a, v)] from rfl]
  refine foldl_mapSet_fresh _ _ _ _ ?_
  intro p hp he
  rcases p with ⟨x, y⟩
  exact h (he ▸ (List.of_mem_zip hp).1)

theorem recordOf_eq_zip (keys : List String) :
    ∀ vals : List ℚ, keys.Nodup → recordOf keys vals = keys.zip vals := by
  induction keys with
  | nil => intro vals _; rfl
  | cons k ks ih =>
    intro vals hnd
    cases vals with
    | nil => rfl
    | cons v vs =>
      rw [recordOf_cons k ks v vs (List.nodup_cons.mp hnd).1, List.zip_cons_cons,
        ih vs (List.nodup_cons.mp hnd).2]

theorem mapGet_recordOf_map (f : String → ℚ) :
    ∀ keys : List String, keys.Nodup →
      ∀ a ∈ keys, mapGet (recordOf keys (keys.map f)) a = some (f a) := by
  intro keys
  induction keys with
  | nil => simp
  | cons k ks ih =>
    intro hnd a ha
    have hk : k ∉ ks := (List.nodup_cons.mp hnd).1
    rw [List.map_cons, recordOf_cons k ks (f k) (ks.map f) hk, mapGet_cons]
    by_cases he : k = a
    · subst he; simp
    · have ha2 : a ∈ ks := by
        rcases List.mem_cons.mp ha with h1 | h1
        · exact absurd h1.symm he
        · exact h1
      simp [he, ih (List.nodup_cons.mp hnd).2 a ha2]

theorem mapGet_recordOf_zipMap (g : String → ℚ → ℚ) :
    ∀ (keys : List String) (vals : List ℚ), keys.Nodup →
      ∀ a ∈ keys,
        mapGet (recordOf keys ((keys.zip vals).map (fun p => g p.1 p.2))) a =
          ((mapGet (recordOf keys vals) a).map (fun v => g a v)) := by
  intro keys
  induction keys with
  | nil => simp
  | cons k ks ih =>
    intro vals hnd a ha
    cases vals with
    | nil => simp [recordOf, mapGet]
    | cons v vs =>
      have hk : k ∉ ks := (List.nodup_cons.mp hnd).1
      rw [List.zip_cons_cons, List.map_cons, recordOf_cons k ks (g k v) _ hk,
        recordOf_cons k ks v vs hk, mapGet_cons, mapGet_cons]
      by_cases he : k = a
      · subst he; simp
      · have ha2 : a ∈ ks := by
          rcases List.mem_cons.mp ha with h1 | h1
          · exact absurd h1.symm he
          · exact h1
        simp [he, ih vs (List.nodup_cons.mp hnd).2 a ha2]

theorem map_lookup_recordOf (g : String → ℚ → ℚ) :
    ∀ (keys : List String) (vals : List ℚ), keys.Nodup → keys.length = vals.length →
      keys.map (fun a => g a ((mapGet (recordOf keys vals) a).getD 0)) =
        (keys.zip vals).map (fun p => g p.1 p.2) := by
  intro keys
  induction keys with
  | nil => simp
  | cons k ks ih =>
    intro vals hnd hlen
    cases vals with
    | nil => simp at hlen
    | cons v vs =>
      have hk : k ∉ ks := (List.nodup_cons.mp hnd).1
      have hlen2 : ks.length = vs.length := by simpa using hlen
      rw [List.zip_cons_cons, List.map_cons, List.map_cons, recordOf_cons k ks v vs hk]
      congr 1
      · rw [mapGet_cons]; simp
      · rw [← ih vs (List.nodup_cons.mp hnd).2 hlen2]
        refine List.map_congr_left ?_
        intro a ha
        rw [mapGet_cons]
        have hne : k ≠ a := fun he => hk (he ▸ ha)
        simp [hne]

theorem snd_sum_recordOf (keys : List String) (vals : List ℚ) (hnd : keys.Nodup)
    (hlen : keys.length = vals.length) :
    ((recordOf keys vals).map (fun p => p.2)).sum = vals.sum := by
  rw [recordOf_eq_zip keys vals hnd, List.map_snd_zip keys vals (le_of_eq hlen.symm)]

/-! Arithmetic helper lemmas about list sums. -/

theorem sum_map_div {α : Type} (l : List α) (f : α → ℚ) (c : ℚ) :
    (l.map (fun x => f x / c)).sum = (l.map f).sum / c := by
  induction l with
  | nil => simp
  | cons x l ih => simp [ih, add_div]

theorem sum_map_addf {α : Type} (l : List α) (f g : α → ℚ) :
    (l.map (fun x => f x + g x)).sum = (l.map f).sum + (l.map g).sum := by
  induction l with
  | nil => simp
  | cons x l ih =>
    simp only [List.map_cons, List.sum_cons, ih]
    ring

theorem mapGet_recordOf_isSome :
    ∀ (keys : List String) (vals : List ℚ), keys.Nodup → keys.length = vals.length →
      ∀ a ∈ keys, ∃ v, mapGet (recordOf keys vals) a = some v := by
  intro keys
  induction keys with
  | nil => simp
  | cons k ks ih =>
    intro vals hnd hlen a ha
    cases vals with
    | nil => simp at hlen
    | cons v vs =>
      have hk : k ∉ ks := (List.nodup_cons.mp hnd).1
      rw [recordOf_cons k ks v vs hk, mapGet_cons]
      by_cases he : k = a
      · exact ⟨v, by simp [he]⟩
      · have ha2 : a ∈ ks := by
          rcases List.mem_cons.mp ha with h1 | h1
          · exact absurd h1.symm he
          · exact h1
        rcases ih vs (List.nodup_cons.mp hnd).2 (by simpa using hlen) a ha2 with ⟨u, hu⟩
        exact ⟨u, by simp [he, hu]⟩

/-! Projections of one simulation step. -/

theorem simStep_fst_date (A : List String) (W : List ℚ) (R : ℚ) (st : SimState) (d : String)
    (m : Record ℚ) : (simStep A W R st d m).1.date = d := rfl

theorem simStep_fst_portfolioReturn (A : List String) (W : List ℚ) (R : ℚ) (st : SimState)
    (d : String) (m : Record ℚ) :
    (simStep A W R st d m).1.portfolioReturn = monthlyReturnOf A st.currentWeights m := rfl

theorem simStep_fst_cumulativeValue (A : List String) (W : List ℚ) (R : ℚ) (st : SimState)
    (d : String) (m : Record ℚ) :
    (simStep A W R st d m).1.cumulativeValue =
      round6 (st.cumulativeValue * (1 + monthlyReturnOf A st.currentWeights m)) := rfl

theorem simStep_fst_assetReturns (A : List String) (W : List ℚ) (R : ℚ) (st : SimState)
    (d : String) (m : Record ℚ) :
    (simStep A W R st d m).1.assetReturns = recordOf A (A.map (assetRet m)) := rfl

theorem simStep_fst_weightsBefore (A : List String) (W : List ℚ) (R : ℚ) (st : SimState)
    (d : String) (m : Record ℚ) :
    (simStep A W R st d m).1.weightsBeforeRebalance = recordOf A st.currentWeights := rfl

theorem simStep_fst_wasRebalanced (A : List String) (W : List ℚ) (R : ℚ) (st : SimState)
    (d : String) (m : Record ℚ) :
    (simStep A W R st d m).1.wasRebalanced =
      (decide (0 < R) && decide (R ≤ ((st.monthsSinceRebalance + 1 : ℕ) : ℚ))) := rfl

theorem simStep_fst_weightsAfter (A : List String) (W : List ℚ) (R : ℚ) (st : SimState)
    (d : String) (m : Record ℚ) :
    (simStep A W R st d m).1.weightsAfterRebalance =
      recordOf A
        (if (simStep A W R st d m).1.wasRebalanced then W
          else driftWeights A st.currentWeights m
            (1 + monthlyReturnOf A st.currentWeights m)) := rfl

theorem simStep_snd_cumulativeValue (A : List String) (W : List ℚ) (R : ℚ) (st : SimState)
    (d : String) (m : Record ℚ) :
    (simStep A W R st d m).2.cumulativeValue =
      st.cumulativeValue * (1 + monthlyReturnOf A st.currentWeights m) := rfl

theorem simStep_snd_currentWeights (A : List String) (W : List ℚ) (R : ℚ) (st : SimState)
    (d : String) (m : Record ℚ) :
    (simStep A W R st d m).2.currentWeights =
      (if (simStep A W R st d m).1.wasRebalanced then W
        else driftWeights A st.currentWeights m
          (1 + monthlyReturnOf A st.currentWeights m)) := rfl

theorem simStep_snd_monthsSinceRebalance (A : List String) (W : List ℚ) (R : ℚ) (st : SimState)
    (d : String) (m : Record ℚ) :
    (simStep A W R st d m).2.monthsSinceRebalance =
      (if (simStep A W R st d m).1.wasRebalanced then 0
        else st.monthsSinceRebalance + 1) := rfl

/-! Lemmas about the simulation loop. -/

theorem simRun_nil (A : List String) (W : List ℚ) (R : ℚ) (B : Record (Record ℚ))
    (st : SimState) : simRun A W R B st [] = [] := rfl

theorem simRun_cons (A : List String) (W : List ℚ) (R : ℚ) (B : Record (Record ℚ))
    (st : SimState) (d : String) (ds : List String) :
    simRun A W R B st (d :: ds) =
      (simStep A W R st d ((mapGet B d).getD [])).1 ::
        simRun A W R B (simStep A W R st d ((mapGet B d).getD [])).2 ds := rfl

theorem simRun_mem_ind (A : List String) (W : List ℚ) (R : ℚ) (B : Record (Record ℚ))
    (P : MonthlyPortfolioReturn → Prop) (Q : SimState → Prop)
    (hstep : ∀ st d, Q st → P (simStep A W R st d ((mapGet B d).getD [])).1)
    (hpres : ∀ st d, Q st → Q (simStep A W R st d ((mapGet B d).getD [])).2) :
    ∀ (dates : List String) (st : SimState), Q st → ∀ r ∈ simRun A W R B st dates, P r := by
  intro dates
  induction dates with
  | nil => intro st _ r hr; simp [simRun_nil] at hr
  | cons d ds ih =>
    intro st hq r hr
    rw [simRun_cons] at hr
    rcases List.mem_cons.mp hr with h1 | h1
    · subst h1; exact hstep st d hq
    · exact ih _ (hpres st d hq) r h1

theorem simRun_dates (A : List String) (W : List ℚ) (R : ℚ) (B : Record (Record ℚ)) :
    ∀ (dates : List String) (st : SimState),
      (simRun A W R B st dates).map (fun r => r.date) = dates := by
  intro dates
  induction dates with
  | nil => intro st; rfl
  | cons d ds ih =>
    intro st
    rw [simRun_cons, List.map_cons, simStep_fst_date, ih]

theorem prodGrowth_cons (r : MonthlyPortfolioReturn) (l : List MonthlyPortfolioReturn) :
    prodGrowth (r :: l) = (1 + r.portfolioReturn) * prodGrowth l := by
  simp [prodGrowth]

theorem simRun_cumulative (A : List String) (W : List ℚ) (R : ℚ) (B : Record (Record ℚ)) :
    ∀ (dates : List String) (st : SimState) (t : ℕ), t < (simRun A W R B st dates).length →
      ((simRun A W R B st dates).getD t default).cumulativeValue =
        round6 (st.cumulativeValue * prodGrowth ((simRun A W R B st dates).take (t + 1))) := by
  intro dates
  induction dates with
  | nil => intro st t h; simp [simRun_nil] at h
  | cons d ds ih =>
    intro st t h
    rw [simRun_cons] at h ⊢
    cases t with
    | zero =>
      rw [List.getD_cons_zero, List.take_succ_cons, List.take_zero, prodGrowth_cons,
        simStep_fst_cumulativeValue, simStep_fst_portfolioReturn]
      congr 1
      simp [prodGrowth]
    | succ t =>
      have h2 : t < (simRun A W R B (simStep A W R st d ((mapGet B d).getD [])).2 ds).length := by
        simpa using h
      rw [List.getD_cons_succ, List.take_succ_cons, prodGrowth_cons, ih _ t h2,
        simStep_snd_cumulativeValue, simStep_fst_portfolioReturn]
      congr 1
      ring

theorem driftWeights_length (A : List String) (w : List ℚ) (m : Record ℚ) (g : ℚ) :
    (driftWeights A w m g).length = min A.length w.length := by
  simp [driftWeights]

theorem simRun_consistent (A : List String) (W : List ℚ) (R : ℚ) (B : Record (Record ℚ))
    (hW : W.length = A.length) :
    ∀ (dates : List String) (st : SimState), st.currentWeights.length = A.length →
      ∀ r ∈ simRun A W R B st dates, StepConsistent A W r := by
  intro dates st hst
  refine simRun_mem_ind A W R B (StepConsistent A W)
    (fun s => s.currentWeights.length = A.length) ?_ ?_ dates st hst
  · intro s d hq
    exact ⟨s.currentWeights, (mapGet B d).getD [], hq, rfl, rfl, rfl,
      simStep_fst_weightsAfter A W R s d _⟩
  · intro s d hq
    rw [simStep_snd_currentWeights]
    by_cases hb : (simStep A W R s d ((mapGet B d).getD [])).1.wasRebalanced
    · simp [hb, hW]
    · simp [hb, driftWeights_length, hq]

theorem sum_zip_snd (A : List String) (w : List ℚ) (hlen : w.length = A.length) :
    ((A.zip w).map (fun p => p.2)).sum = w.sum := by
  rw [show (fun p : String × ℚ => p.2) = Prod.snd from rfl,
    List.map_snd_zip A w (le_of_eq hlen)]

theorem driftWeights_sum (A : List String) (w : List ℚ) (m : Record ℚ)
    (hlen : w.length = A.length) (hsum : w.sum = 1)
    (hg : 1 + monthlyReturnOf A w m ≠ 0) :
    (driftWeights A w m (1 + monthlyReturnOf A w m)).sum = 1 := by
  unfold driftWeights
  rw [sum_map_div]
  have hexp : ((A.zip w).map (fun p => p.2 * (1 + assetRet m p.1))).sum
      = w.sum + monthlyReturnOf A w m := by
    calc ((A.zip w).map (fun p => p.2 * (1 + assetRet m p.1))).sum
        = ((A.zip w).map (fun p => p.2 + p.2 * assetRet m p.1)).sum := by
          refine congrArg List.sum (List.map_congr_left ?_)
          intro p _
          ring
      _ = ((A.zip w).map (fun p => p.2)).sum
            + ((A.zip w).map (fun p => p.2 * assetRet m p.1)).sum := sum_map_addf _ _ _
      _ = w.sum + monthlyReturnOf A w m := by
          rw [sum_zip_snd A w hlen]
          rfl
  rw [hexp, hsum]
  exact div_self hg

/-! Lemmas about the max-drawdown fold. -/

theorem ddFold_le (vs : List ℚ) : ∀ p m : ℚ, (vs.foldl ddStep (p, m)).2 ≤ m := by
  induction vs with
  | nil => intro p m; exact le_refl m
  | cons v vs ih =>
    intro p m
    rw [List.foldl_cons]
    calc (vs.foldl ddStep (ddStep (p, m) v)).2 ≤ (ddStep (p, m) v).2 := ih _ _
      _ ≤ m := min_le_left _ _

theorem ddFold_zero_iff (vs : List ℚ) : ∀ p : ℚ, 0 < p →
    ((vs.foldl ddStep (p, 0)).2 = 0 ↔ List.Chain' (fun a b => a ≤ b) (p :: vs)) := by
  induction vs with
  | nil => intro p _; simp
  | cons v vs ih =>
    intro p hp
    rw [List.foldl_cons]
    by_cases hpv : p ≤ v
    · have hmax : max p v = v := max_eq_right hpv
      have hstep : ddStep (p, 0) v = (v, 0) := by
        simp [ddStep, hmax]
      rw [hstep, ih v (lt_of_lt_of_le hp hpv)]
      simp [List.chain'_cons, hpv]
    · have hv : v < p := not_le.mp hpv
      have hmax : max p v = p := max_eq_left (le_of_lt hv)
      have hdd : (v - max p v) / max p v < 0 := by
        rw [hmax]
        exact div_neg_of_neg_of_pos (by linarith) hp
      have hne : (vs.foldl ddStep (ddStep (p, 0) v)).2 < 0 := by
        calc (vs.foldl ddStep (ddStep (p, 0) v)).2
            ≤ (ddStep (p, 0) v).2 := ddFold_le vs _ _
          _ = min 0 ((v - max p v) / max p v) := rfl
          _ < 0 := by rw [min_eq_right (le_of_lt hdd)]; exact hdd
      constructor
      · intro h0
        exact absurd h0 (ne_of_lt hne)
      · intro hc
        exact absurd (List.chain'_cons.mp hc).1 hpv

theorem maxDrawdownOf_nonpos (vs : List ℚ) : maxDrawdownOf vs ≤ 0 := ddFold_le vs 1 0

theorem maxDrawdownOf_zero_iff (vs : List ℚ) :
    maxDrawdownOf vs = 0 ↔ List.Chain' (fun a b => a ≤ b) (1 :: vs) :=
  ddFold_zero_iff vs 1 one_pos

theorem roundTo_nonpos (k : ℕ) (x : ℚ) (h : x ≤ 0) : roundTo k x ≤ 0 := by
  unfold roundTo
  apply div_nonpos_of_nonpos_of_nonneg
  · have hx : x * 10 ^ k ≤ 0 := mul_nonpos_of_nonpos_of_nonneg h (by positivity)
    have hr : round (x * 10 ^ k) ≤ 0 := by
      rw [round_eq]
      have h1 : x * 10 ^ k + 1 / 2 ≤ (1 : ℚ) / 2 := by linarith
      calc ⌊x * 10 ^ k + 1 / 2⌋ ≤ ⌊(1 : ℚ) / 2⌋ := Int.floor_le_floor h1
        _ = 0 := by norm_num
    exact_mod_cast hr
  · positivity

/-- The value of `calculateMetrics` on a non-empty sequence: every
emitted field is the rounding of the corresponding full-precision
value. -/
theorem calculateMetrics_nonempty (sq : ℚ → ℚ) (pw : ℚ → ℚ → ℚ)
    (ms : List MonthlyPortfolioReturn) (rf : ℚ) (h : ms ≠ []) :
    calculateMetrics sq pw ms rf =
      Except.ok
        ⟨round6 (finalValueOf ms - 1),
          round2 ((finalValueOf ms - 1) * 100),
          round6 (annualizedReturnFull pw ms),
          round2 (annualizedReturnFull pw ms * 100),
          round6 (annualizedVolatilityOf sq ms),
          round2 (annualizedVolatilityOf sq ms * 100),
          round3 (if 0 < annualizedVolatilityOf sq ms then
              annualizedExcessOf pw ms rf / annualizedVolatilityOf sq ms
            else 0),
          round6 (maxDrawdownOf (valuesOf ms)),
          round2 (maxDrawdownOf (valuesOf ms) * 100),
          round3 (if 0 < downsideVolOf sq pw ms rf then
              annualizedExcessOf pw ms rf / downsideVolOf sq pw ms rf
            else 0),
          round3 (if maxDrawdownOf (valuesOf ms) < 0 then
              annualizedReturnFull pw ms / |maxDrawdownOf (valuesOf ms)|
            else 0),
          ms.length,
          round2 (numYearsOf ms),
          round6 (((returnsOf ms).max?).getD 0),
          round6 (((returnsOf ms).min?).getD 0)⟩ := by
  unfold calculateMetrics
  rw [if_neg (fun hc => h (List.length_eq_zero.mp hc))]
  rfl

/-! The claims. -/

/-- C7: `getCompleteDates` returns exactly the date keys at which
every requested asset has an entry, sorted ascending
(lexicographically); a date missing any requested asset never appears,
and the function is total (no error is raised on partially-covered
dates). -/
theorem claim_c7_complete_dates (byDate : Record (Record ℚ)) (assets : List String) :
    List.Sorted (fun a b : String => a ≤ b) (getCompleteDates byDate assets)
    ∧ ∀ d : String,
        (d ∈ getCompleteDates byDate assets ↔
          ∃ m : Record ℚ, (d, m) ∈ byDate ∧ ∀ a ∈ assets, (mapGet m a).isSome = true) := by
  constructor
  · unfold getCompleteDates
    refine List.Pairwise.imp ?_ (List.sorted_mergeSort ?_ ?_ _)
    · intro a b hab
      rw [String.le_iff_toList_le]
      simpa [dateLe] using hab
    · intro a b c hab hbc
      simp only [dateLe, decide_eq_true_eq] at hab hbc ⊢
      exact le_trans hab hbc
    · intro a b
      rcases le_total a.data b.data with h | h <;> simp [dateLe, h]
  · intro d
    unfold getCompleteDates
    rw [List.mem_mergeSort]
    simp only [List.mem_map, List.mem_filter]
    constructor
    · rintro ⟨p, ⟨hp, hall⟩, rfl⟩
      refine ⟨p.2, by simpa using hp, ?_⟩
      intro a ha
      simpa using List.all_eq_true.mp hall a ha
    · rintro ⟨m, hm, hall⟩
      refine ⟨(d, m), ⟨hm, ?_⟩, rfl⟩
      rw [List.all_eq_true]
      intro a ha
      simpa using hall a ha

/-- C1: every emitted `cumulativeValue` is the 6-decimal rounding of
the full-precision product of `1 + portfolioReturn` over the months up
to and including this one, starting from the 1.0 baseline (the empty
product); the accumulator itself is never rounded between months. -/
theorem claim_c1_cumulative_trace (byDate : Record (Record ℚ)) (config : PortfolioConfig)
    (t : ℕ) (h : t < (calculatePortfolioReturns byDate config).length) :
    ((calculatePortfolioReturns byDate config).getD t default).cumulativeValue =
      round6 (prodGrowth ((calculatePortfolioReturns byDate config).take (t + 1))) := by
  unfold calculatePortfolioReturns at h ⊢
  by_cases hc : (getCompleteDates byDate config.assets).length = 0
  · rw [if_pos hc] at h
    simp at h
  · rw [if_neg hc] at h ⊢
    have hmain := simRun_cumulative config.assets config.weights
      (config.rebalanceMonths.getD (-1)) byDate (getCompleteDates byDate config.assets)
      ⟨1, config.weights, 0⟩ t h
    simpa using hmain

/-- C4: a rebalance fires exactly when `rebalanceMonths > 0` and the
incremented months-since-rebalance counter has reached
`rebalanceMonths`; on a rebalance month the emitted after-weights are
exactly the original config weights and the counter resets to 0; on
any other month the drifted weights are carried forward unchanged; and
with `rebalanceMonths = 1` every emitted month is a rebalance month
whose after-weights equal the initial weights exactly, regardless of
the asset returns. -/
theorem claim_c4_rebalance_rule (A : List String) (W : List ℚ) (R : ℚ) (st : SimState)
    (d : String) (m : Record ℚ) :
    ((simStep A W R st d m).1.wasRebalanced = true ↔
      (0 < R ∧ R ≤ ((st.monthsSinceRebalance + 1 : ℕ) : ℚ)))
    ∧ ((simStep A W R st d m).1.wasRebalanced = true →
        (simStep A W R st d m).1.weightsAfterRebalance = recordOf A W
        ∧ (simStep A W R st d m).2.monthsSinceRebalance = 0
        ∧ (simStep A W R st d m).2.currentWeights = W)
    ∧ ((simStep A W R st d m).1.wasRebalanced = false →
        (simStep A W R st d m).1.weightsAfterRebalance =
          recordOf A (driftWeights A st.currentWeights m
            (1 + monthlyReturnOf A st.currentWeights m))
        ∧ (simStep A W R st d m).2.monthsSinceRebalance = st.monthsSinceRebalance + 1
        ∧ (simStep A W R st d m).2.currentWeights =
            driftWeights A st.currentWeights m
              (1 + monthlyReturnOf A st.currentWeights m))
    ∧ ∀ (byDate : Record (Record ℚ)) (config : PortfolioConfig),
        config.rebalanceMonths = some 1 →
        ∀ r ∈ calculatePortfolioReturns byDate config,
          r.wasRebalanced = true
          ∧ r.weightsAfterRebalance = recordOf config.assets config.weights := by
  refine ⟨?_, ?_, ?_, ?_⟩
  · rw [simStep_fst_wasRebalanced]
    simp [Bool.and_eq_true, decide_eq_true_eq]
  · intro hb
    rw [simStep_fst_weightsAfter, simStep_snd_monthsSinceRebalance,
      simStep_snd_currentWeights, hb]
    exact ⟨rfl, rfl, rfl⟩
  · intro hb
    rw [simStep_fst_weightsAfter, simStep_snd_monthsSinceRebalance,
      simStep_snd_currentWeights, hb]
    exact ⟨rfl, rfl, rfl⟩
  · intro byDate config hrm r hr
    unfold calculatePortfolioReturns at hr
    by_cases hc : (getCompleteDates byDate config.assets).length = 0
    · rw [if_pos hc] at hr
      simp at hr
    · rw [if_neg hc, hrm] at hr
      simp only [Option.getD_some] at hr
      refine simRun_mem_ind config.assets config.weights 1 byDate
        (fun r => r.wasRebalanced = true
          ∧ r.weightsAfterRebalance = recordOf config.assets config.weights)
        (fun _ => True) ?_ (fun _ _ _ => trivial) _ _ trivial r hr
      intro s e _
      have hb : (simStep config.assets config.weights 1 s e
          ((mapGet byDate e).getD [])).1.wasRebalanced = true := by
        rw [simStep_fst_wasRebalanced]
        simp only [Bool.and_eq_true, decide_eq_true_eq]
        refine ⟨one_pos, ?_⟩
        exact_mod_cast Nat.succ_le_succ (Nat.zero_le _)
      refine ⟨hb, ?_⟩
      rw [simStep_fst_weightsAfter, hb]
      rfl

/-- C6: in exact arithmetic, if the entry weights of a month sum to 1
and the month's growth factor `1 + monthlyReturn` is nonzero, then the
drifted weights sum to exactly 1; hence on a month without rebalancing
the updated state weights still sum to 1, and (for duplicate-free
assets) the values of both emitted weight records sum to 1. -/
theorem claim_c6_weight_conservation (A : List String) (W : List ℚ) (R : ℚ)
    (st : SimState) (d : String) (m : Record ℚ)
    (hlen : st.currentWeights.length = A.length)
    (hsum : st.currentWeights.sum = 1)
    (hg : 1 + monthlyReturnOf A st.currentWeights m ≠ 0) :
    (driftWeights A st.currentWeights m (1 + monthlyReturnOf A st.currentWeights m)).sum = 1
    ∧ ((simStep A W R st d m).1.wasRebalanced = false →
        (simStep A W R st d m).2.currentWeights.sum = 1)
    ∧ (A.Nodup →
        ((simStep A W R st d m).1.weightsBeforeRebalance.map (fun p => p.2)).sum = 1
        ∧ ((simStep A W R st d m).1.wasRebalanced = false →
            ((simStep A W R st d m).1.weightsAfterRebalance.map (fun p => p.2)).sum = 1)) := by
  have hdrift := driftWeights_sum A st.currentWeights m hlen hsum hg
  refine ⟨hdrift, ?_, ?_⟩
  · intro hb
    rw [simStep_snd_currentWeights, hb]
    simpa using hdrift
  · intro hnd
    constructor
    · rw [simStep_fst_weightsBefore, snd_sum_recordOf A st.currentWeights hnd hlen.symm]
      exact hsum
    · intro hb
      rw [simStep_fst_weightsAfter, hb]
      simp only [Bool.false_eq_true, if_false]
      rw [snd_sum_recordOf A _ hnd
        (by rw [driftWeights_length, hlen, min_self])]
      exact hdrift

theorem mapGet_recordOf_drift (A : List String) (w : List ℚ) (m : Record ℚ) (C : ℚ)
    (hnd : A.Nodup) (a : String) (ha : a ∈ A) :
    mapGet (recordOf A (driftWeights A w m C)) a =
      (mapGet (recordOf A w) a).map (fun v => v * (1 + assetRet m a) / C) := by
  have h := mapGet_recordOf_zipMap (fun x v => v * (1 + assetRet m x) / C) A w hnd a ha
  simpa [driftWeights] using h

/-- C3: on every month without rebalancing, each emitted after-weight
is the entry weight times `(1 + assetReturn) / (1 + monthlyReturn)`,
and the emitted monthly return is the weighted sum of the asset
returns under the entry weights; Scenario B (two assets 50/50, +10%
and -10%, never rebalance) gives month-1 return 0 and after-weights
0.55 / 0.45 exactly. -/
theorem claim_c3_drift_formula (byDate : Record (Record ℚ)) (config : PortfolioConfig)
    (hnd : config.assets.Nodup) (hlen : config.weights.length = config.assets.length) :
    (∀ r ∈ calculatePortfolioReturns byDate config,
      (r.wasRebalanced = false → ∀ a ∈ config.assets,
        mapGet r.weightsAfterRebalance a =
          some ((mapGet r.weightsBeforeRebalance a).getD 0 *
            (1 + (mapGet r.assetReturns a).getD 0) / (1 + r.portfolioReturn)))
      ∧ r.portfolioReturn =
          (config.assets.map (fun a =>
            (mapGet r.weightsBeforeRebalance a).getD 0 *
              (mapGet r.assetReturns a).getD 0)).sum)
    ∧ ((calculatePortfolioReturns
          [("2020-01", [("X", 1/10), ("Y", -1/10)]),
            ("2020-02", [("X", 1/10), ("Y", -1/10)])]
          ⟨["X", "Y"], [1/2, 1/2], "2020-01", "2020-02", none⟩).getD 0
            default).portfolioReturn = 0
    ∧ mapGet ((calculatePortfolioReturns
          [("2020-01", [("X", 1/10), ("Y", -1/10)]),
            ("2020-02", [("X", 1/10), ("Y", -1/10)])]
          ⟨["X", "Y"], [1/2, 1/2], "2020-01", "2020-02", none⟩).getD 0
            default).weightsAfterRebalance "X" = some (11/20)
    ∧ mapGet ((calculatePortfolioReturns
          [("2020-01", [("X", 1/10), ("Y", -1/10)]),
            ("2020-02", [("X", 1/10), ("Y", -1/10)])]
          ⟨["X", "Y"], [1/2, 1/2], "2020-01", "2020-02", none⟩).getD 0
            default).weightsAfterRebalance "Y" = some (9/20) := by
  have hscenario :
      ((calculatePortfolioReturns
          [("2020-01", [("X", 1/10), ("Y", -1/10)]),
            ("2020-02", [("X", 1/10), ("Y", -1/10)])]
          ⟨["X", "Y"], [1/2, 1/2], "2020-01", "2020-02", none⟩).getD 0
            default).portfolioReturn = 0
      ∧ mapGet ((calculatePortfolioReturns
          [("2020-01", [("X", 1/10), ("Y", -1/10)]),
            ("2020-02", [("X", 1/10), ("Y", -1/10)])]
          ⟨["X", "Y"], [1/2, 1/2], "2020-01", "2020-02", none⟩).getD 0
            default).weightsAfterRebalance "X" = some (11/20)
      ∧ mapGet ((calculatePortfolioReturns
          [("2020-01", [("X", 1/10), ("Y", -1/10)]),
            ("2020-02", [("X", 1/10), ("Y", -1/10)])]
          ⟨["X", "Y"], [1/2, 1/2], "2020-01", "2020-02", none⟩).getD 0
            default).weightsAfterRebalance "Y" = some (9/20) := by
    have hdates : getCompleteDates
        [("2020-01", [("X", 1/10), ("Y", -1/10)]), ("2020-02", [("X", 1/10), ("Y", -1/10)])]
        ["X", "Y"] = ["2020-01", "2020-02"] := by
      simp only [getCompleteDates, List.filter, List.all, mapGet, List.find?]
      norm_num
      simp [List.mergeSort, List.merge, dateLe]
      decide
    have hxy : ("X" == "Y") = false := rfl
    have hyx : ("Y" == "X") = false := rfl
    have hxx : ("X" == "X") = true := rfl
    have hyy : ("Y" == "Y") = true := rfl
    simp only [calculatePortfolioReturns, hdates]
    norm_num
    simp only [simRun, simStep, mapGet, List.find?]
    norm_num [monthlyReturnOf, assetRet, mapGet, List.find?, driftWeights, recordOf, mapSet,
      hxy, hyx, hxx, hyy]
  refine ⟨?_, hscenario.1, hscenario.2.1, hscenario.2.2⟩
  intro r hr
  have hcons : StepConsistent config.assets config.weights r := by
    unfold calculatePortfolioReturns at hr
    by_cases hc : (getCompleteDates byDate config.assets).length = 0
    · rw [if_pos hc] at hr
      simp at hr
    · rw [if_neg hc] at hr
      exact simRun_consistent config.assets config.weights
        (config.rebalanceMonths.getD (-1)) byDate hlen _ _ hlen r hr
  rcases hcons with ⟨w, m, hw, har, hwb, hpr, hwa⟩
  have hra : ∀ a ∈ config.assets, (mapGet r.assetReturns a).getD 0 = assetRet m a := by
    intro a ha
    rw [har, mapGet_recordOf_map (assetRet m) config.assets hnd a ha]
    rfl
  constructor
  · intro hrb a ha
    rw [hwa, hrb]
    simp only [Bool.false_eq_true, if_false]
    rw [mapGet_recordOf_drift config.assets w m (1 + monthlyReturnOf config.assets w m)
      hnd a ha]
    obtain ⟨v0, hv0⟩ := mapGet_recordOf_isSome config.assets w hnd hw.symm a ha
    rw [hv0, hwb, hv0, hra a ha, hpr]
    rfl
  · rw [hpr, hwb, har]
    have h1 : config.assets.map (fun a =>
        (mapGet (recordOf config.assets w) a).getD 0 *
          (mapGet (recordOf config.assets (config.assets.map (assetRet m))) a).getD 0)
        = config.assets.map (fun a =>
          (mapGet (recordOf config.assets w) a).getD 0 * assetRet m a) := by
      refine List.map_congr_left ?_
      intro a ha
      rw [mapGet_recordOf_map (assetRet m) config.assets hnd a ha]
      rfl
    have h2 : config.assets.map (fun a =>
        (mapGet (recordOf config.assets w) a).getD 0 * assetRet m a)
        = (config.assets.zip w).map (fun p => p.2 * assetRet m p.1) := by
      simpa using map_lookup_recordOf (fun a v => v * assetRet m a)
        config.assets w hnd hw.symm
    rw [h1, h2]
    rfl

/-- C2: on a non-empty monthly sequence `calculateMetrics` emits
exactly the fixed-precision roundings of full-precision values:
`totalReturn`, `annualizedReturn`, `maxDrawdown`, the volatilities and
the ratios are all computed unrounded, each ratio is built from the
unrounded values of the metrics it derives from (e.g. the Calmar
ratio divides the unrounded annualized return by the unrounded
absolute max drawdown), and rounding appears only on the emitted
fields. -/
theorem claim_c2_rounding_presentation (sq : ℚ → ℚ) (pw : ℚ → ℚ → ℚ)
    (ms : List MonthlyPortfolioReturn) (rf : ℚ) (h : ms ≠ []) :
    calculateMetrics sq pw ms rf =
      Except.ok
        ⟨round6 (finalValueOf ms - 1),
          round2 ((finalValueOf ms - 1) * 100),
          round6 (annualizedReturnFull pw ms),
          round2 (annualizedReturnFull pw ms * 100),
          round6 (annualizedVolatilityOf sq ms),
          round2 (annualizedVolatilityOf sq ms * 100),
          round3 (if 0 < annualizedVolatilityOf sq ms then
              annualizedExcessOf pw ms rf / annualizedVolatilityOf sq ms
            else 0),
          round6 (maxDrawdownOf (valuesOf ms)),
          round2 (maxDrawdownOf (valuesOf ms) * 100),
          round3 (if 0 < downsideVolOf sq pw ms rf then
              annualizedExcessOf pw ms rf / downsideVolOf sq pw ms rf
            else 0),
          round3 (if maxDrawdownOf (valuesOf ms) < 0 then
              annualizedReturnFull pw ms / |maxDrawdownOf (valuesOf ms)|
            else 0),
          ms.length,
          round2 (numYearsOf ms),
          round6 (((returnsOf ms).max?).getD 0),
          round6 (((returnsOf ms).min?).getD 0)⟩ :=
  calculateMetrics_nonempty sq pw ms rf h

/-- C5: the full-precision max drawdown of the cumulative-value series
is always nonpositive, and it is zero exactly when the series with the
1.0 baseline prepended is non-decreasing; the `maxDrawdown` field
emitted by `calculateMetrics` is its 6-decimal rounding and is also
nonpositive. -/
theorem claim_c5_drawdown_bound (sq : ℚ → ℚ) (pw : ℚ → ℚ → ℚ)
    (ms : List MonthlyPortfolioReturn) (rf : ℚ) :
    maxDrawdownOf (valuesOf ms) ≤ 0
    ∧ (maxDrawdownOf (valuesOf ms) = 0 ↔
        List.Chain' (fun a b => a ≤ b) (1 :: valuesOf ms))
    ∧ ∀ m, calculateMetrics sq pw ms rf = Except.ok m →
        m.maxDrawdown = round6 (maxDrawdownOf (valuesOf ms)) ∧ m.maxDrawdown ≤ 0 := by
  refine ⟨maxDrawdownOf_nonpos _, maxDrawdownOf_zero_iff _, ?_⟩
  intro m hm
  have hne : ms ≠ [] := by
    intro he
    subst he
    simp [calculateMetrics] at hm
  rw [calculateMetrics_nonempty sq pw ms rf hne] at hm
  injection hm with hrec
  subst hrec
  exact ⟨rfl, roundTo_nonpos 6 _ (maxDrawdownOf_nonpos _)⟩

theorem validate_error_ne (config : PortfolioConfig) :
    (validatePortfolioConfig config).error.getD "" ≠
      "Cannot calculate metrics with no return data" := by
  unfold validatePortfolioConfig
  split_ifs <;> decide

/-- C8: validation rejects exactly when the assets or weights list is
empty, the lengths differ, the weight sum is more than 0.01 away from
1.0, or the defaulted `rebalanceMonths` is neither -1 nor a positive
integer; every rejection carries an error message, `calculatePortfolio`
throws that message before any simulation, and Scenario E (weights
[0.5, 0.4]) is rejected by the weight-sum rule with no simulation
attempted. -/
theorem claim_c8_validation (config : PortfolioConfig) :
    ((validatePortfolioConfig config).valid = false ↔
      (config.assets.length = 0 ∨ config.weights.length = 0 ∨
        config.assets.length ≠ config.weights.length ∨
        |config.weights.foldl (fun a b => a + b) 0 - 1| > 1 / 100 ∨
        (config.rebalanceMonths.getD (-1) ≠ -1 ∧
          (config.rebalanceMonths.getD (-1) < 1 ∨
            (config.rebalanceMonths.getD (-1)).den ≠ 1))))
    ∧ ((validatePortfolioConfig config).valid = false →
        (validatePortfolioConfig config).error.isSome = true)
    ∧ (∀ (sq : ℚ → ℚ) (pw : ℚ → ℚ → ℚ) (returns : List AssetReturn) (rfq : Option ℚ),
        (validatePortfolioConfig config).valid = false →
        calculatePortfolio sq pw returns config rfq =
          Except.error ((validatePortfolioConfig config).error.getD ""))
    ∧ validatePortfolioConfig
        ⟨["A", "B"], [1/2, 2/5], "2020-01", "2020-12", none⟩ =
      ⟨false, some "Weights must sum to 1.0"⟩
    ∧ ∀ (sq : ℚ → ℚ) (pw : ℚ → ℚ → ℚ) (returns : List AssetReturn) (rfq : Option ℚ),
        calculatePortfolio sq pw returns
          ⟨["A", "B"], [1/2, 2/5], "2020-01", "2020-12", none⟩ rfq =
          Except.error "Weights must sum to 1.0" := by
  have hscenario : validatePortfolioConfig
      ⟨["A", "B"], [1/2, 2/5], "2020-01", "2020-12", none⟩ =
      ⟨false, some "Weights must sum to 1.0"⟩ := by
    have habs : |(1 : ℚ)/10| = 1/10 := abs_of_pos (by norm_num)
    simp only [validatePortfolioConfig, List.foldl]
    norm_num [habs]
  have hthrow : ∀ (sq : ℚ → ℚ) (pw : ℚ → ℚ → ℚ) (returns : List AssetReturn)
      (rfq : Option ℚ), (validatePortfolioConfig config).valid = false →
      calculatePortfolio sq pw returns config rfq =
        Except.error ((validatePortfolioConfig config).error.getD "") := by
    intro sq pw returns rfq hv
    unfold calculatePortfolio
    rw [if_pos hv]
  refine ⟨?_, ?_, hthrow, hscenario, ?_⟩
  · unfold validatePortfolioConfig
    split_ifs with h1 h2 h3 h4 h5 <;> simp_all
  · unfold validatePortfolioConfig
    split_ifs <;> simp
  · intro sq pw returns rfq
    unfold calculatePortfolio
    rw [if_pos (by rw [hscenario])]
    rw [hscenario]
    rfl

/-- C9: on a valid config with no complete month,
`calculatePortfolio` fails with the empty-result error and returns no
result; `calculateMetrics` fails on an empty sequence with its own
error; and that metrics failure is unreachable through
`calculatePortfolio` — its result is never the metrics error. -/
theorem claim_c9_empty_result (sq : ℚ → ℚ) (pw : ℚ → ℚ → ℚ) (returns : List AssetReturn)
    (config : PortfolioConfig) (rfq : Option ℚ) :
    ((validatePortfolioConfig config).valid = true →
      getCompleteDates (groupReturnsByDate returns) config.assets = [] →
      calculatePortfolio sq pw returns config rfq =
        Except.error "No overlapping data found for all assets in date range")
    ∧ (∀ q : ℚ, calculateMetrics sq pw [] q =
        Except.error "Cannot calculate metrics with no return data")
    ∧ calculatePortfolio sq pw returns config rfq ≠
        Except.error "Cannot calculate metrics with no return data" := by
  refine ⟨?_, fun q => rfl, ?_⟩
  · intro hv hempty
    have hmr : calculatePortfolioReturns (groupReturnsByDate returns) config = [] := by
      unfold calculatePortfolioReturns
      rw [hempty]
      simp
    simp [calculatePortfolio, hv, hmr]
  · intro hcontra
    unfold calculatePortfolio at hcontra
    by_cases hv : (validatePortfolioConfig config).valid = false
    · rw [if_pos hv] at hcontra
      injection hcontra with he
      exact validate_error_ne config he
    · rw [if_neg hv] at hcontra
      by_cases hlen : (calculatePortfolioReturns (groupReturnsByDate returns) config).length = 0
      · simp only [hlen, if_true] at hcontra
        injection hcontra with he
        exact absurd he (by decide)
      · have hne : calculatePortfolioReturns (groupReturnsByDate returns) config ≠ [] := by
          intro he
          exact hlen (by rw [he]; rfl)
        simp only [hlen, if_false] at hcontra
        rw [calculateMetrics_nonempty sq pw _ _ hne] at hcontra
        simp at hcontra

/-- C10: the simulated months, time series and metrics produced by
`calculatePortfolio` do not depend on `startDate` / `endDate`: two
configs differing only in those fields give identical outputs apart
from the echoed config, and the months simulated are exactly the
complete dates of the grouped input, with no date-range filtering. -/
theorem claim_c10_date_range_unused (sq : ℚ → ℚ) (pw : ℚ → ℚ → ℚ)
    (returns : List AssetReturn) (c₁ c₂ : PortfolioConfig) (rfq : Option ℚ)
    (ha : c₁.assets = c₂.assets) (hw : c₁.weights = c₂.weights)
    (hr : c₁.rebalanceMonths = c₂.rebalanceMonths) :
    calculatePortfolioReturns (groupReturnsByDate returns) c₁ =
      calculatePortfolioReturns (groupReturnsByDate returns) c₂
    ∧ Except.map (fun r => (r.monthlyReturns, r.timeSeries, r.metrics))
        (calculatePortfolio sq pw returns c₁ rfq) =
      Except.map (fun r => (r.monthlyReturns, r.timeSeries, r.metrics))
        (calculatePortfolio sq pw returns c₂ rfq)
    ∧ ∀ res, calculatePortfolio sq pw returns c₁ rfq = Except.ok res →
        res.monthlyReturns.map (fun r => r.date) =
          getCompleteDates (groupReturnsByDate returns) c₁.assets := by
  have hval : validatePortfolioConfig c₁ = validatePortfolioConfig c₂ := by
    unfold validatePortfolioConfig
    rw [ha, hw, hr]
  have hcalc : calculatePortfolioReturns (groupReturnsByDate returns) c₁ =
      calculatePortfolioReturns (groupReturnsByDate returns) c₂ := by
    unfold calculatePortfolioReturns
    rw [ha, hw, hr]
  have hdates : ∀ c : PortfolioConfig,
      (getCompleteDates (groupReturnsByDate returns) c.assets).length ≠ 0 →
      (calculatePortfolioReturns (groupReturnsByDate returns) c).map (fun r => r.date) =
        getCompleteDates (groupReturnsByDate returns) c.assets := by
    intro c hc
    unfold calculatePortfolioReturns
    rw [if_neg hc]
    exact simRun_dates c.assets c.weights (c.rebalanceMonths.getD (-1))
      (groupReturnsByDate returns) _ _
  refine ⟨hcalc, ?_, ?_⟩
  · unfold calculatePortfolio
    rw [hval, hcalc]
    by_cases hv : (validatePortfolioConfig c₂).valid = false
    · rw [if_pos hv, if_pos hv]
    · rw [if_neg hv, if_neg hv]
      by_cases hlen : (calculatePortfolioReturns (groupReturnsByDate returns) c₂).length = 0
      · simp only [hlen, if_true]
      · simp only [hlen, if_false]
        rcases hm : calculateMetrics sq pw
            (calculatePortfolioReturns (groupReturnsByDate returns) c₂)
            (rfq.getD (1 / 50)) with e | mtr <;> simp [Except.map]
  · intro res hres
    unfold calculatePortfolio at hres
    by_cases hv : (validatePortfolioConfig c₁).valid = false
    · rw [if_pos hv] at hres
      exact absurd hres (by simp)
    · rw [if_neg hv] at hres
      by_cases hlen : (calculatePortfolioReturns (groupReturnsByDate returns) c₁).length = 0
      · simp only [hlen, if_true] at hres
        exact absurd hres (by simp)
      · simp only [hlen, if_false] at hres
        have hne : calculatePortfolioReturns (groupReturnsByDate returns) c₁ ≠ [] := by
          intro he
          exact hlen (by rw [he]; rfl)
        rw [calculateMetrics_nonempty sq pw _ _ hne] at hres
        simp only [Except.ok.injEq] at hres
        have hlen2 : (getCompleteDates (groupReturnsByDate returns) c₁.assets).length ≠ 0 := by
          intro he
          apply hne
          unfold calculatePortfolioReturns
          rw [if_pos he]
        rw [← hres]
        exact hdates c₁ hlen2

/-! Concrete witnesses instantiating each claim theorem. -/

/-- Witness for C1 on a one-asset, one-month input. -/
theorem claim_c1_cumulative_trace_witness :
    0 < (calculatePortfolioReturns [("2020-01", [("X", 1/20)])]
        ⟨["X"], [1], "2020-01", "2020-01", none⟩).length
    ∧ ((calculatePortfolioReturns [("2020-01", [("X", 1/20)])]
          ⟨["X"], [1], "2020-01", "2020-01", none⟩).getD 0 default).cumulativeValue =
        round6 (prodGrowth ((calculatePortfolioReturns [("2020-01", [("X", 1/20)])]
          ⟨["X"], [1], "2020-01", "2020-01", none⟩).take (0 + 1))) := by
  have hdates : getCompleteDates [("2020-01", [("X", 1/20)])] ["X"] = ["2020-01"] := by
    simp [getCompleteDates, mapGet, List.find?, List.filter, List.all, List.mergeSort]
  have hlen : 0 < (calculatePortfolioReturns [("2020-01", [("X", 1/20)])]
      ⟨["X"], [1], "2020-01", "2020-01", none⟩).length := by
    unfold calculatePortfolioReturns
    rw [hdates]
    simp [simRun_cons, simRun_nil]
  exact ⟨hlen, claim_c1_cumulative_trace _ _ 0 hlen⟩

/-- Witness for C2 on a one-month trace. -/
theorem claim_c2_rounding_presentation_witness :
    (([⟨"d", 0, 1, [], [], [], false⟩] : List MonthlyPortfolioReturn) ≠ [])
    ∧ calculateMetrics id (fun a _ => a)
        [⟨"d", 0, 1, [], [], [], false⟩] (1/50) =
      Except.ok
        ⟨round6 (finalValueOf [⟨"d", 0, 1, [], [], [], false⟩] - 1),
          round2 ((finalValueOf [⟨"d", 0, 1, [], [], [], false⟩] - 1) * 100),
          round6 (annualizedReturnFull (fun a _ => a) [⟨"d", 0, 1, [], [], [], false⟩]),
          round2 (annualizedReturnFull (fun a _ => a) [⟨"d", 0, 1, [], [], [], false⟩] * 100),
          round6 (annualizedVolatilityOf id [⟨"d", 0, 1, [], [], [], false⟩]),
          round2 (annualizedVolatilityOf id [⟨"d", 0, 1, [], [], [], false⟩] * 100),
          round3 (if 0 < annualizedVolatilityOf id [⟨"d", 0, 1, [], [], [], false⟩] then
              annualizedExcessOf (fun a _ => a) [⟨"d", 0, 1, [], [], [], false⟩] (1/50) /
                annualizedVolatilityOf id [⟨"d", 0, 1, [], [], [], false⟩]
            else 0),
          round6 (maxDrawdownOf (valuesOf [⟨"d", 0, 1, [], [], [], false⟩])),
          round2 (maxDrawdownOf (valuesOf [⟨"d", 0, 1, [], [], [], false⟩]) * 100),
          round3 (if 0 < downsideVolOf id (fun a _ => a)
                [⟨"d", 0, 1, [], [], [], false⟩] (1/50) then
              annualizedExcessOf (fun a _ => a) [⟨"d", 0, 1, [], [], [], false⟩] (1/50) /
                downsideVolOf id (fun a _ => a) [⟨"d", 0, 1, [], [], [], false⟩] (1/50)
            else 0),
          round3 (if maxDrawdownOf (valuesOf [⟨"d", 0, 1, [], [], [], false⟩]) < 0 then
              annualizedReturnFull (fun a _ => a) [⟨"d", 0, 1, [], [], [], false⟩] /
                |maxDrawdownOf (valuesOf [⟨"d", 0, 1, [], [], [], false⟩])|
            else 0),
          ([⟨"d", 0, 1, [], [], [], false⟩] : List MonthlyPortfolioReturn).length,
          round2 (numYearsOf [⟨"d", 0, 1, [], [], [], false⟩]),
          round6 (((returnsOf [⟨"d", 0, 1, [], [], [], false⟩]).max?).getD 0),
          round6 (((returnsOf [⟨"d", 0, 1, [], [], [], false⟩]).min?).getD 0)⟩ :=
  ⟨by simp, claim_c2_rounding_presentation id (fun a _ => a)
    [⟨"d", 0, 1, [], [], [], false⟩] (1/50) (by simp)⟩

/-- Witness for C3 at the Scenario B input. -/
theorem claim_c3_drift_formula_witness :
    ((⟨["X", "Y"], [1/2, 1/2], "2020-01", "2020-02", none⟩ :
        PortfolioConfig).assets).Nodup
    ∧ ((⟨["X", "Y"], [1/2, 1/2], "2020-01", "2020-02", none⟩ :
        PortfolioConfig).weights).length =
      ((⟨["X", "Y"], [1/2, 1/2], "2020-01", "2020-02", none⟩ :
        PortfolioConfig).assets).length
    ∧ ((calculatePortfolioReturns
          [("2020-01", [("X", 1/10), ("Y", -1/10)]),
            ("2020-02", [("X", 1/10), ("Y", -1/10)])]
          ⟨["X", "Y"], [1/2, 1/2], "2020-01", "2020-02", none⟩).getD 0
            default).portfolioReturn = 0 := by
  refine ⟨by decide, by decide, ?_⟩
  exact (claim_c3_drift_formula
    [("2020-01", [("X", 1/10), ("Y", -1/10)]), ("2020-02", [("X", 1/10), ("Y", -1/10)])]
    ⟨["X", "Y"], [1/2, 1/2], "2020-01", "2020-02", none⟩ (by decide) (by decide)).2.1

/-- Witness for C4: with a cadence of 1 month the very first step
rebalances and emits the initial weights. -/
theorem claim_c4_rebalance_rule_witness :
    (simStep ["X"] [1] 1 ⟨1, [1], 0⟩ "d" []).1.wasRebalanced = true
    ∧ (simStep ["X"] [1] 1 ⟨1, [1], 0⟩ "d" []).1.weightsAfterRebalance =
        recordOf ["X"] [1] := by
  have h := claim_c4_rebalance_rule ["X"] [1] 1 ⟨1, [1], 0⟩ "d" []
  have hb : (simStep ["X"] [1] 1 ⟨1, [1], 0⟩ "d" []).1.wasRebalanced = true := by
    refine h.1.mpr ⟨one_pos, ?_⟩
    norm_num
  exact ⟨hb, (h.2.1 hb).1⟩

/-- Witness for C5 on a one-month trace. -/
theorem claim_c5_drawdown_bound_witness :
    ((calculateMetrics id (fun a _ => a)
        [⟨"d", 0, 1, [], [], [], false⟩] (1/50)).toOption.get!).maxDrawdown =
      round6 (maxDrawdownOf (valuesOf [⟨"d", 0, 1, [], [], [], false⟩]))
    ∧ ((calculateMetrics id (fun a _ => a)
        [⟨"d", 0, 1, [], [], [], false⟩] (1/50)).toOption.get!).maxDrawdown ≤ 0 :=
  (claim_c5_drawdown_bound id (fun a _ => a)
    [⟨"d", 0, 1, [], [], [], false⟩] (1/50)).2.2 _ rfl

/-- Witness for C6 at the Scenario B month-1 state. -/
theorem claim_c6_weight_conservation_witness :
    (⟨1, [1/2, 1/2], 0⟩ : SimState).currentWeights.length =
      (["X", "Y"] : List String).length
    ∧ (⟨1, [1/2, 1/2], 0⟩ : SimState).currentWeights.sum = 1
    ∧ 1 + monthlyReturnOf ["X", "Y"] (⟨1, [1/2, 1/2], 0⟩ : SimState).currentWeights
        [("X", 1/10), ("Y", -1/10)] ≠ 0
    ∧ (driftWeights ["X", "Y"] (⟨1, [1/2, 1/2], 0⟩ : SimState).currentWeights
        [("X", 1/10), ("Y", -1/10)]
        (1 + monthlyReturnOf ["X", "Y"] (⟨1, [1/2, 1/2], 0⟩ : SimState).currentWeights
          [("X", 1/10), ("Y", -1/10)])).sum = 1 := by
  have h1 : (⟨1, [1/2, 1/2], 0⟩ : SimState).currentWeights.length =
      (["X", "Y"] : List String).length := by decide
  have h2 : (⟨1, [1/2, 1/2], 0⟩ : SimState).currentWeights.sum = 1 := by
    norm_num [List.sum_cons, List.sum_nil]
  have h3 : 1 + monthlyReturnOf ["X", "Y"] (⟨1, [1/2, 1/2], 0⟩ : SimState).currentWeights
      [("X", 1/10), ("Y", -1/10)] ≠ 0 := by
    have hxy : ("X" == "Y") = false := rfl
    have hxx : ("X" == "X") = true := rfl
    have hyy : ("Y" == "Y") = true := rfl
    norm_num [monthlyReturnOf, assetRet, mapGet, List.find?, hxy, hxx, hyy]
  exact ⟨h1, h2, h3,
    (claim_c6_weight_conservation ["X", "Y"] [1/2, 1/2] (-1) ⟨1, [1/2, 1/2], 0⟩ "d"
      [("X", 1/10), ("Y", -1/10)] h1 h2 h3).1⟩

/-- Witness for C7: a month covering only X is complete for [X] but
dropped (without an error) for [X, Y]. -/
theorem claim_c7_complete_dates_witness :
    "2020-01" ∈ getCompleteDates [("2020-01", [("X", 1)])] ["X"]
    ∧ "2020-01" ∉ getCompleteDates [("2020-01", [("X", 1)])] ["X", "Y"] := by
  constructor
  · refine ((claim_c7_complete_dates [("2020-01", [("X", 1)])] ["X"]).2 "2020-01").mpr ?_
    refine ⟨[("X", 1)], by simp, ?_⟩
    intro a ha
    have ha2 : a = "X" := by simpa using ha
    subst ha2
    rfl
  · intro hmem
    rcases ((claim_c7_complete_dates [("2020-01", [("X", 1)])] ["X", "Y"]).2 "2020-01").mp
      hmem with ⟨m, hm, hall⟩
    have hm2 : m = [("X", 1)] := by simpa using hm
    subst hm2
    have := hall "Y" (by simp)
    simp [mapGet, List.find?] at this

/-- Witness for C8 at the Scenario E config. -/
theorem claim_c8_validation_witness :
    (validatePortfolioConfig
        ⟨["A", "B"], [1/2, 2/5], "2020-01", "2020-12", none⟩).valid = false
    ∧ calculatePortfolio id (fun a _ => a) []
        ⟨["A", "B"], [1/2, 2/5], "2020-01", "2020-12", none⟩ none =
      Except.error "Weights must sum to 1.0" := by
  have h := claim_c8_validation ⟨["A", "B"], [1/2, 2/5], "2020-01", "2020-12", none⟩
  constructor
  · rw [h.2.2.2.1]
  · exact h.2.2.2.2 id (fun a _ => a) [] none

/-- Witness for C9: an empty feed with a valid one-asset config fails
with the empty-result error, and metrics on an empty trace fail with
the no-data error. -/
theorem claim_c9_empty_result_witness :
    calculatePortfolio id (fun a _ => a) [] ⟨["X"], [1], "2020-01", "2020-12", none⟩ none =
      Except.error "No overlapping data found for all assets in date range"
    ∧ calculateMetrics id (fun a _ => a) [] (1/50) =
      Except.error "Cannot calculate metrics with no return data" := by
  have h := claim_c9_empty_result id (fun a _ => a) []
    ⟨["X"], [1], "2020-01", "2020-12", none⟩ none
  have hv : (validatePortfolioConfig
      ⟨["X"], [1], "2020-01", "2020-12", none⟩).valid = true := by
    norm_num [validatePortfolioConfig, List.foldl]
  have he : getCompleteDates (groupReturnsByDate [])
      ((⟨["X"], [1], "2020-01", "2020-12", none⟩ : PortfolioConfig).assets) = [] := by
    simp [getCompleteDates, groupReturnsByDate, List.mergeSort]
  exact ⟨h.1 hv he, h.2.1 (1/50)⟩

/-- Witness for C10: two configs that differ only in the date range
produce the same simulated months. -/
theorem claim_c10_date_range_unused_witness :
    calculatePortfolioReturns (groupReturnsByDate [])
        ⟨["X"], [1], "2001-01", "2001-12", none⟩ =
      calculatePortfolioReturns (groupReturnsByDate [])
        ⟨["X"], [1], "1999-01", "1999-06", none⟩ :=
  (claim_c10_date_range_unused id (fun a _ => a) []
    ⟨["X"], [1], "2001-01", "2001-12", none⟩
    ⟨["X"], [1], "1999-01", "1999-06", none⟩ none rfl rfl rfl).1

end Portfolio
